import Mathlib

/-!
Verification development for the Welcome Wizard enhanced device-type import
job (`src/jobs/enhanced_device_import.py`).

The Python module is shallowly embedded:

* `slugify_device_name` becomes a pure function on `String`
  (Python `str.lower` and the regex character class `\s` are modelled on
  their ASCII subsets, which is all the repository's data exercises);
* `find_elevation_image` becomes a pure function parameterised by the
  filesystem, represented as a predicate `FS.pathExists : String → Bool`;
* `import_device_type_with_images` becomes an explicit state-passing
  function over a `DB` value that models the persistence layer
  (manufacturers, device types, component templates, attached images and
  the extensible-attribute store), returning the final database, the log
  entries emitted through the optional logger, and an `Outcome` that is
  either the created record or the raised error kind.  The external
  collaborators whose outcomes the module merely observes — the record
  creation form (`DeviceTypeImportForm`) and the save of custom
  fields — are modelled by explicit behaviour parameters
  (`FormBehavior`, `cfSaveOk`).

The input YAML dictionary is embedded as its lookup function
`DeviceData := String → Option Val`; `toDict` produces such a lookup from
an association list, which lets key-order independence be stated.
-/

/-- Scalar values that can appear as fields of a raw component item. -/
inductive SVal where
  | b (x : Bool)
  | s (x : String)
  | n (x : Int)
deriving DecidableEq, Repr

/-- Values of the parsed YAML device-type dictionary. -/
inductive Val where
  | bool (b : Bool)
  | str (s : String)
  | num (n : Int)
  | items (l : List (List (String × SVal)))
deriving DecidableEq, Repr

/-- A device-type spec is embedded as the lookup function of the parsed
dictionary (`data.get` in the Python source). -/
def DeviceData : Type := String → Option Val

/-- Build the lookup function of an association list (a literal YAML
dictionary with its textual key order). -/
def toDict (l : List (String × Val)) : DeviceData :=
  fun k => (l.find? (fun p => p.1 == k)).map (fun p => p.2)

/-- Python truthiness of `data.get(key)` as used by the source for the
`front_image` / `rear_image` flags. -/
def truthyOpt : Option Val → Bool
  | some (.bool b) => b
  | some (.str s) => !(s == "")
  | some (.num n) => !(n == 0)
  | some (.items l) => !l.isEmpty
  | none => false

/-- Read a string-valued key (`data.get(key)` where the code needs a
string, e.g. the manufacturer name). -/
def getStrV : Option Val → Option String
  | some (.str s) => some s
  | _ => none

/-- Read a component list (`data[key]` inside `if key in data`). -/
def getItemsV : Option Val → Option (List (List (String × SVal)))
  | some (.items l) => some l
  | _ => none

/-- Python rendering of an optional string inside an f-string:
`None` prints as `"None"`. -/
def pyStr : Option String → String
  | some s => s
  | none => "None"

/-- Characters kept by the regex character class `[a-z0-9\-]` of
`slugify_device_name` (the complement class is deleted). -/
def slugChar (c : Char) : Bool :=
  ('a' ≤ c && c ≤ 'z') || ('0' ≤ c && c ≤ '9') || (c == '-')

/-- Characters matched by the regex class `[\s_]` of
`slugify_device_name`, modelled on its ASCII subset. -/
def isSpaceUnderscore (c : Char) : Bool :=
  (c == ' ') || (c == '\t') || (c == '\n') || (c == '\r') ||
    (c == '\x0b') || (c == '\x0c') || (c == '_')

/-- Replace every maximal run of characters satisfying `p` by the single
character `r`; the flag records whether we are inside such a run
(this is `re.sub(p+, r, ·)`). -/
def collapseRunsAux (p : Char → Bool) (r : Char) : Bool → List Char → List Char
  | _, [] => []
  | inRun, c :: cs =>
    if p c then
      if inRun then collapseRunsAux p r true cs
      else r :: collapseRunsAux p r true cs
    else c :: collapseRunsAux p r false cs

/-- Replace every maximal run of characters satisfying `p` by `r`. -/
def collapseRuns (p : Char → Bool) (r : Char) (l : List Char) : List Char :=
  collapseRunsAux p r false l

/-- Python `str.strip(r)`: drop every leading and trailing occurrence of
the character `r`. -/
def stripChar (r : Char) (l : List Char) : List Char :=
  (((l.dropWhile (fun c => c == r)).reverse.dropWhile (fun c => c == r))).reverse

/-- Embedding of `slugify_device_name`: combine manufacturer and model
with a space, lowercase, turn runs of whitespace/underscores into one
hyphen, delete everything outside `[a-z0-9-]`, collapse hyphen runs and
strip outer hyphens. -/
def slugify_device_name (manufacturer_name model_name : String) : String :=
  let combined := manufacturer_name ++ " " ++ model_name
  let lowered := combined.data.map Char.toLower
  let hyphened := collapseRuns isSpaceUnderscore '-' lowered
  let filtered := hyphened.filter slugChar
  let collapsed := collapseRuns (fun c => c == '-') '-' filtered
  String.mk (stripChar '-' collapsed)

/-- The filesystem as seen by the job: which paths exist, and which
image files can be opened and copied successfully. -/
structure FS where
  pathExists : String → Bool
  readable : String → Bool

/-- The Git repository collaborator: only its checked-out filesystem
path is consumed. -/
structure GitRepo where
  filesystem_path : String
deriving DecidableEq, Repr

/-- Whether a path string starts with a slash (`b.startswith('/')`). -/
def startsWithSlash (s : String) : Bool :=
  match s.data with
  | '/' :: _ => true
  | _ => false

/-- Whether a path string ends with a slash (`a.endswith('/')`). -/
def endsWithSlash (s : String) : Bool :=
  match s.data.getLast? with
  | some '/' => true
  | _ => false

/-- POSIX `os.path.join` on two segments. -/
def joinPath (a b : String) : String :=
  if startsWithSlash b then b
  else if a = "" ∨ endsWithSlash a then a ++ b
  else a ++ "/" ++ b

/-- POSIX `os.path.basename`: the part after the last slash. -/
def basename (p : String) : String :=
  String.mk ((p.data.reverse.takeWhile (fun c => c ≠ '/')).reverse)

/-- The fixed extension priority list of `find_elevation_image`. -/
def imageExtensions : List String := [".png", ".jpg", ".jpeg", ".svg"]

/-- Embedding of `find_elevation_image`: probe
`<repo>/elevation-images/<manufacturer>/<slug>.<orientation>.<ext>` for
each extension in priority order and return the first existing path. -/
def find_elevation_image (fs : FS) (git_repo : GitRepo)
    (manufacturer_name model_name image_type : String) : Option String :=
  let repo_path := git_repo.filesystem_path
  let slug := slugify_device_name manufacturer_name model_name
  let elevation_dir := joinPath (joinPath repo_path "elevation-images") manufacturer_name
  if fs.pathExists elevation_dir then
    (imageExtensions.map
        (fun ext => joinPath elevation_dir (slug ++ "." ++ image_type ++ ext))).find?
      fs.pathExists
  else
    none

/-- A persisted `DeviceType` row: its primary key, the resolved
manufacturer's name and the model (absent when the spec lacks one). -/
structure DeviceTypeRecord where
  id : Nat
  manufacturer : String
  model : Option String
deriving DecidableEq, Repr

/-- A persisted component template: its kind key (the `COMPONENTS` table
key it was created through), the owning device type and the kept raw
fields. -/
structure Component where
  kind : String
  device_type : Nat
  fields : List (String × SVal)
deriving DecidableEq, Repr

/-- The persistence layer's visible state: registered manufacturers,
device-type rows, component templates, attached elevation images
`(device id, orientation, stored file name)`, the extensible-attribute
store `(device id, attribute key, value)` and the next primary key. -/
structure DB where
  manufacturers : List String
  devicetypes : List DeviceTypeRecord
  components : List Component
  images : List (Nat × String × String)
  cfStore : List (Nat × String × Val)
  nextId : Nat
deriving DecidableEq, Repr

/-- Error kinds the import can surface. -/
inductive ImpError where
  | manufacturerNotFound
  | duplicateDeviceType
  | multipleObjectsReturned
  | validationError
  | uniquenessViolation
deriving DecidableEq, Repr

/-- Result of the import: the record, or the raised error. -/
inductive Outcome where
  | ok (record : DeviceTypeRecord)
  | err (e : ImpError)
deriving DecidableEq, Repr

/-- Structured log entries; each corresponds to one logger call site of
the source. -/
inductive LogEntry where
  | createdDeviceType (manufacturer : String) (model : Option String)
  | createdComponents (count : Nat) (key : String)
  | importedFrontImage (file : String)
  | failedFrontImage
  | frontImageNotFound
  | importedRearImage (file : String)
  | failedRearImage
  | rearImageNotFound
  | setCustomFields (keys : List String)
  | failedCustomFields
deriving DecidableEq, Repr

/-- Log levels of the logging collaborator. -/
inductive LogLevel where
  | info
  | warning
deriving DecidableEq, Repr

/-- The level each source call site logs at. -/
def LogEntry.level : LogEntry → LogLevel
  | .createdDeviceType _ _ => .info
  | .createdComponents _ _ => .info
  | .importedFrontImage _ => .info
  | .failedFrontImage => .warning
  | .frontImageNotFound => .warning
  | .importedRearImage _ => .info
  | .failedRearImage => .warning
  | .rearImageNotFound => .warning
  | .setCustomFields _ => .info
  | .failedCustomFields => .warning

/-- Append a log entry when a logger was supplied (`if logger:` guards in
the source). -/
def logIf (logger : Bool) (e : LogEntry) (log : List LogEntry) : List LogEntry :=
  if logger then log ++ [e] else log

/-- Behaviour of the external `DeviceTypeImportForm.save()` collaborator
for the current call: it either creates the row or raises. -/
inductive FormBehavior where
  | ok
  | validationError
  | uniquenessViolation
deriving DecidableEq, Repr

/-- The ordered `COMPONENTS` table: component-list key to template model,
in source insertion order (only the key matters in the model). -/
def COMPONENTS : List String :=
  ["console-ports", "console-server-ports", "power-ports", "power-outlets",
   "interfaces", "rear-ports", "front-ports", "device-bays", "module-bays"]

/-- The `STRIP_KEYWORDS` table as its total lookup
(`STRIP_KEYWORDS.get(key, [])`). -/
def STRIP_KEYWORDS (key : String) : List String :=
  if key = "interfaces" then ["poe_mode", "poe_type"] else []

/-- Build the component templates for one `COMPONENTS` key: absent key
(or a key not holding a list) contributes nothing; otherwise each raw
item is kept in order with the denylisted fields stripped. -/
def materializeKind (data : DeviceData) (devId : Nat) (key : String) : List Component :=
  match getItemsV (data key) with
  | some items =>
      items.map (fun item =>
        ⟨key, devId, item.filter (fun f => decide (f.1 ∉ STRIP_KEYWORDS key))⟩)
  | none => []

/-- The per-kind `Created {n} {key}` info entries, in table order. -/
def componentLogs (data : DeviceData) : List LogEntry :=
  COMPONENTS.filterMap (fun key =>
    (getItemsV (data key)).map (fun items => LogEntry.createdComponents items.length key))

/-- The image-attachment stage of the import: when a Git repository is
available, resolve and attach the front and then the rear elevation
image whenever the spec's flag is truthy; a resolution miss or an
unreadable candidate only logs a warning. -/
def imageStage (fs : FS) (logger : Bool) (git_repo : Option GitRepo)
    (data : DeviceData) (devId : Nat) (mname : String) (modelStr : String)
    (db : DB) (log : List LogEntry) : DB × List LogEntry :=
  match git_repo with
  | none => (db, log)
  | some repo =>
    let front :=
      if truthyOpt (data "front_image") then
        match find_elevation_image fs repo mname modelStr "front" with
        | some path =>
          if fs.readable path then
            ({ db with images := db.images ++ [(devId, "front", basename path)] },
             logIf logger (.importedFrontImage (basename path)) log)
          else (db, logIf logger .failedFrontImage log)
        | none => (db, logIf logger .frontImageNotFound log)
      else (db, log)
    if truthyOpt (data "rear_image") then
      match find_elevation_image fs repo mname modelStr "rear" with
      | some path =>
        if fs.readable path then
          ({ front.1 with images := front.1.images ++ [(devId, "rear", basename path)] },
           logIf logger (.importedRearImage (basename path)) front.2)
        else (front.1, logIf logger .failedRearImage front.2)
      | none => (front.1, logIf logger .rearImageNotFound front.2)
    else front

/-- The fixed `custom_field_mapping` table of the source:
custom-field key paired with the spec field it is read from. -/
def custom_field_mapping : List (String × String) :=
  [("cf_slug", "slug"), ("cf_weight", "weight"), ("cf_weight_unit", "weight_unit"),
   ("cf_airflow", "airflow"), ("cf_front_image", "front_image"), ("cf_rear_image", "rear_image")]

/-- The staged custom-field assignments: one entry per mapping row whose
spec field is present in the data. -/
def cfStaged (data : DeviceData) : List (String × Val) :=
  custom_field_mapping.filterMap (fun p => (data p.2).map (fun v => (p.1, v)))

/-- The custom-field backfill stage: if anything was staged, apply all
staged values and persist in one save (which may fail; failure only logs
a warning); otherwise do nothing. -/
def cfStage (logger cfSaveOk : Bool) (data : DeviceData) (devId : Nat)
    (db : DB) (log : List LogEntry) : DB × List LogEntry :=
  let cf_data := cfStaged data
  if cf_data.isEmpty then (db, log)
  else if cfSaveOk then
    ({ db with cfStore := db.cfStore ++ cf_data.map (fun p => (devId, p.1, p.2)) },
     logIf logger (.setCustomFields (cf_data.map (fun p => p.1))) log)
  else (db, logIf logger .failedCustomFields log)

/-- Everything after the duplicate pre-check: base-record creation
through the import form, component materialization in `COMPONENTS`
order, image attachment and custom-field backfill. -/
def afterDupCheck (db : DB) (data : DeviceData) (git_repo : Option GitRepo) (fs : FS)
    (logger : Bool) (formB : FormBehavior) (cfSaveOk : Bool)
    (mname : String) (model : Option String) : DB × List LogEntry × Outcome :=
  match formB with
  | .validationError => (db, [], .err .validationError)
  | .uniquenessViolation => (db, [], .err .uniquenessViolation)
  | .ok =>
    let devtype : DeviceTypeRecord := ⟨db.nextId, mname, model⟩
    let db1 : DB := { db with
      devicetypes := db.devicetypes ++ [devtype], nextId := db.nextId + 1 }
    let log1 := logIf logger (.createdDeviceType mname model) []
    let newComps := (COMPONENTS.map (fun key => materializeKind data db.nextId key)).flatten
    let db2 : DB := { db1 with components := db1.components ++ newComps }
    let log2 := log1 ++ (if logger then componentLogs data else [])
    let afterImages := imageStage fs logger git_repo data devtype.id mname (pyStr model) db2 log2
    let afterCf := cfStage logger cfSaveOk data devtype.id afterImages.1 afterImages.2
    (afterCf.1, afterCf.2, .ok devtype)

/-- Outcome of the duplicate pre-check, by the rows matching the spec's
(manufacturer, model) pair: none found — `DeviceType.DoesNotExist` is
suppressed and the import continues; exactly one found — the source
raises `ValueError` (the duplicate error); several found —
`DeviceType.objects.get` raises `MultipleObjectsReturned`, which the
`suppress` block does not swallow. -/
def dupCheckBranch (db : DB) (data : DeviceData) (git_repo : Option GitRepo) (fs : FS)
    (logger : Bool) (formB : FormBehavior) (cfSaveOk : Bool)
    (mname : String) (model : Option String) :
    List DeviceTypeRecord → DB × List LogEntry × Outcome
  | [] => afterDupCheck db data git_repo fs logger formB cfSaveOk mname model
  | [_] => (db, [], .err .duplicateDeviceType)
  | _ => (db, [], .err .multipleObjectsReturned)

/-- The import after the manufacturer name has been read: resolve the
manufacturer (`Manufacturer.objects.get`), then run the duplicate
pre-check on the rows matching the pair. -/
def importAfterMfr (db : DB) (data : DeviceData) (git_repo : Option GitRepo) (fs : FS)
    (logger : Bool) (formB : FormBehavior) (cfSaveOk : Bool)
    (mname : String) : DB × List LogEntry × Outcome :=
  if mname ∈ db.manufacturers then
    dupCheckBranch db data git_repo fs logger formB cfSaveOk mname (getStrV (data "model"))
      (db.devicetypes.filter
        (fun dt => decide (dt.model = getStrV (data "model")) && decide (dt.manufacturer = mname)))
  else (db, [], .err .manufacturerNotFound)

/-- Dispatch on `data.get("manufacturer")`: anything but a string name
leaves `Manufacturer.objects.get` finding nothing. -/
def importWithMname (db : DB) (data : DeviceData) (git_repo : Option GitRepo) (fs : FS)
    (logger : Bool) (formB : FormBehavior) (cfSaveOk : Bool) :
    Option Val → DB × List LogEntry × Outcome
  | some (Val.str mname) => importAfterMfr db data git_repo fs logger formB cfSaveOk mname
  | _ => (db, [], .err .manufacturerNotFound)

/-- Embedding of `import_device_type_with_images`: manufacturer lookup,
duplicate pre-check (`DeviceType.objects.get` inside
`contextlib.suppress(DoesNotExist)` raising `ValueError` when a row is
found), then creation and enrichment. -/
def import_device_type_with_images (db : DB) (data : DeviceData)
    (git_repo : Option GitRepo) (fs : FS) (logger : Bool)
    (formB : FormBehavior) (cfSaveOk : Bool) : DB × List LogEntry × Outcome :=
  importWithMname db data git_repo fs logger formB cfSaveOk (data "manufacturer")

/-- The persistence invariants the data store maintains: no two
device-type rows share a `(manufacturer, model)` pair, and every row's
manufacturer is registered. -/
def DB.WF (db : DB) : Prop :=
  (db.devicetypes.map (fun dt => (dt.manufacturer, dt.model))).Nodup ∧
    ∀ dt ∈ db.devicetypes, dt.manufacturer ∈ db.manufacturers

instance (db : DB) : Decidable db.WF := by
  unfold DB.WF; infer_instance

/-- The elevation-images directory probed by `find_elevation_image`:
repository root, the fixed subdirectory, then the raw manufacturer name. -/
def elevationDir (repo : GitRepo) (manufacturer_name : String) : String :=
  joinPath (joinPath repo.filesystem_path "elevation-images") manufacturer_name

/-- The candidate file path probed by `find_elevation_image` for one
extension. -/
def candidatePath (repo : GitRepo) (manufacturer_name model_name image_type ext : String) : String :=
  joinPath (elevationDir repo manufacturer_name)
    (slugify_device_name manufacturer_name model_name ++ "." ++ image_type ++ ext)

/-- C4: the resolver probes the directory made of the repository root,
the fixed elevation-images subdirectory and the literal manufacturer
name (not its slug); it returns absent when that directory is missing,
and also when the directory exists but no candidate file exists for any
of the four extensions. -/
theorem find_elevation_image_absent_cases (fs : FS) (repo : GitRepo)
    (manufacturer_name model_name image_type : String) :
    (fs.pathExists (elevationDir repo manufacturer_name) = false →
      find_elevation_image fs repo manufacturer_name model_name image_type = none) ∧
    (fs.pathExists (elevationDir repo manufacturer_name) = true →
      (∀ ext ∈ [".png", ".jpg", ".jpeg", ".svg"],
        fs.pathExists (candidatePath repo manufacturer_name model_name image_type ext) = false) →
      find_elevation_image fs repo manufacturer_name model_name image_type = none) := by
  constructor
  · intro h
    simp [find_elevation_image, elevationDir] at h ⊢
    simp [h]
  · intro h hext
    simp only [find_elevation_image, elevationDir] at h ⊢
    rw [if_pos h]
    rw [List.find?_eq_none]
    intro x hx
    simp only [List.mem_map, imageExtensions] at hx
    obtain ⟨ext, hmem, rfl⟩ := hx
    have := hext ext (by simpa using hmem)
    simpa [candidatePath, elevationDir] using this

/-- C5: the resolver probes extensions in the fixed order `.png`,
`.jpg`, `.jpeg`, `.svg` and returns the first existing match; in
particular an existing `.png` wins over a simultaneously existing
`.jpg`. -/
theorem find_elevation_image_priority_order (fs : FS) (repo : GitRepo)
    (manufacturer_name model_name image_type : String)
    (hdir : fs.pathExists (elevationDir repo manufacturer_name) = true) :
    (fs.pathExists (candidatePath repo manufacturer_name model_name image_type ".png") = true →
      find_elevation_image fs repo manufacturer_name model_name image_type
        = some (candidatePath repo manufacturer_name model_name image_type ".png")) ∧
    (fs.pathExists (candidatePath repo manufacturer_name model_name image_type ".png") = false →
      fs.pathExists (candidatePath repo manufacturer_name model_name image_type ".jpg") = true →
      find_elevation_image fs repo manufacturer_name model_name image_type
        = some (candidatePath repo manufacturer_name model_name image_type ".jpg")) ∧
    (fs.pathExists (candidatePath repo manufacturer_name model_name image_type ".png") = false →
      fs.pathExists (candidatePath repo manufacturer_name model_name image_type ".jpg") = false →
      fs.pathExists (candidatePath repo manufacturer_name model_name image_type ".jpeg") = true →
      find_elevation_image fs repo manufacturer_name model_name image_type
        = some (candidatePath repo manufacturer_name model_name image_type ".jpeg")) ∧
    (fs.pathExists (candidatePath repo manufacturer_name model_name image_type ".png") = false →
      fs.pathExists (candidatePath repo manufacturer_name model_name image_type ".jpg") = false →
      fs.pathExists (candidatePath repo manufacturer_name model_name image_type ".jpeg") = false →
      fs.pathExists (candidatePath repo manufacturer_name model_name image_type ".svg") = true →
      find_elevation_image fs repo manufacturer_name model_name image_type
        = some (candidatePath repo manufacturer_name model_name image_type ".svg")) := by
  simp only [find_elevation_image, elevationDir] at hdir ⊢
  rw [if_pos hdir]
  simp only [imageExtensions, List.map, candidatePath, elevationDir]
  refine ⟨?_, ?_, ?_, ?_⟩
  · intro h1; simp [List.find?, h1]
  · intro h1 h2; simp [List.find?, h1, h2]
  · intro h1 h2 h3; simp [List.find?, h1, h2, h3]
  · intro h1 h2 h3 h4; simp [List.find?, h1, h2, h3, h4]

/-- C2: the slug generator, the pure total function combining
manufacturer and model with a space, lowercasing, collapsing
whitespace/underscore runs to one hyphen, deleting characters outside
`[a-z0-9-]`, collapsing hyphen runs and trimming outer hyphens, maps
Palo Alto / PA-850 to palo-alto-pa-850. -/
theorem slugify_palo_alto : slugify_device_name "Palo Alto" "PA-850" = "palo-alto-pa-850" := by
  decide

/-- No two adjacent hyphens anywhere in the list. -/
def NoDouble (l : List Char) : Prop :=
  l.Chain' (fun a b => ¬(a = '-' ∧ b = '-'))

instance (l : List Char) : Decidable (NoDouble l) := by
  unfold NoDouble; infer_instance

/-- A well-formed slug: only `[a-z0-9-]` characters, no leading hyphen,
no trailing hyphen, no doubled hyphen. -/
def IsSlug (s : String) : Prop :=
  (∀ c ∈ s.data, slugChar c = true) ∧
    (∀ c, s.data.head? = some c → c ≠ '-') ∧
    (∀ c, s.data.getLast? = some c → c ≠ '-') ∧
    NoDouble s.data

instance (s : String) : Decidable (IsSlug s) := by
  unfold IsSlug; infer_instance

lemma slugChar_toNat (c : Char) (h : slugChar c = true) :
    (97 ≤ c.toNat ∧ c.toNat ≤ 122) ∨ (48 ≤ c.toNat ∧ c.toNat ≤ 57) ∨ c.toNat = 45 := by
  simp only [slugChar, Bool.or_eq_true, Bool.and_eq_true, decide_eq_true_eq, beq_iff_eq] at h
  rcases h with (⟨h1, h2⟩ | ⟨h1, h2⟩) | rfl
  · left
    rw [Char.le_def, UInt32.le_def, BitVec.le_def] at h1 h2
    exact ⟨h1, h2⟩
  · right; left
    rw [Char.le_def, UInt32.le_def, BitVec.le_def] at h1 h2
    exact ⟨h1, h2⟩
  · right; right; rfl

lemma toLower_eq_self_of_slugChar (c : Char) (h : slugChar c = true) : c.toLower = c := by
  have h2 := slugChar_toNat c h
  unfold Char.toLower
  rw [if_neg]
  omega

lemma ws_char_cases (c : Char) (h : isSpaceUnderscore c = true) :
    c = ' ' ∨ c = '\t' ∨ c = '\n' ∨ c = '\r' ∨ c = '\x0b' ∨ c = '\x0c' ∨ c = '_' := by
  simp only [isSpaceUnderscore, Bool.or_eq_true, beq_iff_eq] at h
  tauto

lemma slugChar_not_ws (c : Char) (h : slugChar c = true) : isSpaceUnderscore c = false := by
  cases hws : isSpaceUnderscore c with
  | false => rfl
  | true =>
    exfalso
    rcases ws_char_cases c hws with rfl | rfl | rfl | rfl | rfl | rfl | rfl <;>
      exact absurd h (by decide)

lemma mem_collapseRunsAux {p : Char → Bool} {r : Char} :
    ∀ {b : Bool} {l : List Char} {c : Char}, c ∈ collapseRunsAux p r b l →
      c = r ∨ (c ∈ l ∧ p c = false) := by
  intro b l
  induction l generalizing b with
  | nil => intro c hc; simp [collapseRunsAux] at hc
  | cons a t ih =>
    intro c hc
    by_cases hp : p a
    · rw [collapseRunsAux, if_pos hp] at hc
      cases b with
      | true =>
        rcases ih hc with h | ⟨h1, h2⟩
        · exact Or.inl h
        · exact Or.inr ⟨List.mem_cons_of_mem a h1, h2⟩
      | false =>
        rcases List.mem_cons.mp hc with rfl | hc2
        · exact Or.inl rfl
        · rcases ih hc2 with h | ⟨h1, h2⟩
          · exact Or.inl h
          · exact Or.inr ⟨List.mem_cons_of_mem a h1, h2⟩
    · rw [collapseRunsAux, if_neg hp] at hc
      rcases List.mem_cons.mp hc with rfl | hc2
      · exact Or.inr ⟨by simp, by simpa using hp⟩
      · rcases ih hc2 with h | ⟨h1, h2⟩
        · exact Or.inl h
        · exact Or.inr ⟨List.mem_cons_of_mem a h1, h2⟩

lemma head?_collapseRunsAux_true {p : Char → Bool} {r : Char} :
    ∀ {l : List Char} {c : Char}, (collapseRunsAux p r true l).head? = some c →
      p c = false := by
  intro l
  induction l with
  | nil => intro c hc; simp [collapseRunsAux] at hc
  | cons a t ih =>
    intro c hc
    by_cases hp : p a
    · rw [collapseRunsAux, if_pos hp] at hc
      exact ih hc
    · rw [collapseRunsAux, if_neg hp] at hc
      simp only [List.head?_cons, Option.some.injEq] at hc
      subst hc
      simpa using hp

lemma chain'_collapseRunsAux :
    ∀ (l : List Char) (b : Bool),
      (collapseRunsAux (fun c => c == '-') '-' b l).Chain' (fun a b => ¬(a = '-' ∧ b = '-')) := by
  intro l
  induction l with
  | nil => intro b; simp [collapseRunsAux]
  | cons a t ih =>
    intro b
    by_cases hp : (a == '-') = true
    · cases b with
      | true =>
        rw [collapseRunsAux, if_pos hp]
        exact ih true
      | false =>
        rw [collapseRunsAux, if_pos hp, if_neg (by simp)]
        rw [List.chain'_cons']
        refine ⟨?_, ih true⟩
        intro y hy
        have := head?_collapseRunsAux_true (Option.mem_def.mp hy)
        simp only [beq_eq_false_iff_ne] at this
        exact fun hc => this hc.2
    · rw [collapseRunsAux, if_neg hp]
      rw [List.chain'_cons']
      refine ⟨?_, ih false⟩
      intro y hy
      simp only [beq_eq_false_iff_ne] at hp
      have hp2 : a ≠ '-' := by simpa using hp
      exact fun hc => hp2 hc.1

lemma collapseRunsAux_eq_self :
    ∀ (l : List Char) (b : Bool),
      l.Chain' (fun a b => ¬(a = '-' ∧ b = '-')) →
      (b = true → ∀ c, l.head? = some c → c ≠ '-') →
      collapseRunsAux (fun c => c == '-') '-' b l = l := by
  intro l
  induction l with
  | nil => intro b _ _; simp [collapseRunsAux]
  | cons a t ih =>
    intro b hch hb
    have hch2 : t.Chain' (fun a b => ¬(a = '-' ∧ b = '-')) := hch.tail
    by_cases hp : (a == '-') = true
    · have ha : a = '-' := by simpa using hp
      cases b with
      | true =>
        exfalso
        exact hb rfl a (by simp) ha
      | false =>
        rw [collapseRunsAux, if_pos hp, if_neg (by simp)]
        rw [List.chain'_cons'] at hch
        have hhd : ∀ c, t.head? = some c → c ≠ '-' := by
          intro c hc hcontra
          exact hch.1 c hc ⟨ha, hcontra⟩
        rw [ih true hch2 (fun _ => hhd), ha]
    · have ha : a ≠ '-' := by simpa using hp
      rw [collapseRunsAux, if_neg hp]
      rw [ih false hch2 (by simp)]

lemma collapseRunsAux_append_run {p : Char → Bool} {r x : Char} :
    ∀ (l : List Char), (∀ c ∈ l, p c = false) → p x = true →
      collapseRunsAux p r false (l ++ [x]) = l ++ [r] := by
  intro l
  induction l with
  | nil =>
    intro _ hx
    simp [collapseRunsAux, hx]
  | cons a t ih =>
    intro hl hx
    have ha : p a = false := hl a (by simp)
    rw [List.cons_append, collapseRunsAux, if_neg (by simp [ha])]
    rw [ih (fun c hc => hl c (List.mem_cons_of_mem a hc)) hx]
    rfl

lemma mem_stripChar {r c : Char} {l : List Char} (h : c ∈ stripChar r l) : c ∈ l := by
  unfold stripChar at h
  rw [List.mem_reverse] at h
  have h2 := (List.dropWhile_sublist (l := (l.dropWhile (fun c => c == r)).reverse)
    (p := fun c => c == r)).subset h
  rw [List.mem_reverse] at h2
  exact (List.dropWhile_sublist (l := l) (p := fun c => c == r)).subset h2

lemma head?_dropWhile {p : Char → Bool} :
    ∀ {l : List Char} {c : Char}, (l.dropWhile p).head? = some c → p c = false := by
  intro l
  induction l with
  | nil => intro c hc; simp at hc
  | cons a t ih =>
    intro c hc
    rw [List.dropWhile_cons] at hc
    by_cases hp : p a
    · rw [if_pos hp] at hc
      exact ih hc
    · rw [if_neg hp] at hc
      simp only [List.head?_cons, Option.some.injEq] at hc
      subst hc
      simpa using hp

lemma dropWhile_eq_self_of_head {p : Char → Bool} {l : List Char}
    (h : ∀ c, l.head? = some c → p c = false) : l.dropWhile p = l := by
  cases l with
  | nil => rfl
  | cons a t =>
    rw [List.dropWhile_cons, if_neg]
    simp [h a rfl]

lemma getLast?_dropWhile {p : Char → Bool} :
    ∀ (l : List Char), l.dropWhile p = [] ∨ (l.dropWhile p).getLast? = l.getLast? := by
  intro l
  induction l with
  | nil => exact Or.inl rfl
  | cons a t ih =>
    rw [List.dropWhile_cons]
    by_cases hp : p a
    · rw [if_pos hp]
      rcases ih with h | h
      · exact Or.inl h
      · cases t with
        | nil => exact Or.inl rfl
        | cons b u =>
          right
          rw [h, List.getLast?_cons_cons]
    · rw [if_neg hp]
      exact Or.inr rfl

lemma chain'_dropWhile {R : Char → Char → Prop} {p : Char → Bool} :
    ∀ {l : List Char}, l.Chain' R → (l.dropWhile p).Chain' R := by
  intro l
  induction l with
  | nil => intro h; exact h
  | cons a t ih =>
    intro h
    rw [List.dropWhile_cons]
    by_cases hp : p a
    · rw [if_pos hp]
      exact ih h.tail
    · rw [if_neg hp]
      exact h

lemma chain'_reverse_hyphen {l : List Char} (h : l.Chain' (fun a b => ¬(a = '-' ∧ b = '-'))) :
    l.reverse.Chain' (fun a b => ¬(a = '-' ∧ b = '-')) := by
  rw [List.chain'_reverse]
  exact h.imp (fun a b hab hc => hab ⟨hc.2, hc.1⟩)

lemma chain'_stripChar {l : List Char} (h : l.Chain' (fun a b => ¬(a = '-' ∧ b = '-'))) :
    (stripChar '-' l).Chain' (fun a b => ¬(a = '-' ∧ b = '-')) := by
  unfold stripChar
  exact chain'_reverse_hyphen (chain'_dropWhile (chain'_reverse_hyphen (chain'_dropWhile h)))

lemma head?_stripChar {r c : Char} {l : List Char} (h : (stripChar r l).head? = some c) :
    (c == r) = false := by
  unfold stripChar at h
  rw [List.head?_reverse] at h
  rcases getLast?_dropWhile (p := fun c => c == r) ((l.dropWhile (fun c => c == r)).reverse) with
    he | he
  · rw [he] at h
    simp at h
  · rw [he, List.getLast?_reverse] at h
    exact head?_dropWhile (p := fun c => c == r) h

lemma getLast?_stripChar {r c : Char} {l : List Char} (h : (stripChar r l).getLast? = some c) :
    (c == r) = false := by
  unfold stripChar at h
  rw [List.getLast?_reverse] at h
  exact head?_dropWhile (p := fun c => c == r) h

lemma slugify_data (m d : String) :
    (slugify_device_name m d).data =
      stripChar '-' (collapseRuns (fun c => c == '-') '-'
        ((collapseRuns isSpaceUnderscore '-' ((m ++ " " ++ d).data.map Char.toLower)).filter
          slugChar)) := rfl

lemma map_toLower_eq_self {l : List Char} (h : ∀ c ∈ l, slugChar c = true) :
    l.map Char.toLower = l := by
  induction l with
  | nil => rfl
  | cons a t ih =>
    rw [List.map_cons, toLower_eq_self_of_slugChar a (h a (by simp)),
      ih (fun c hc => h c (List.mem_cons_of_mem a hc))]

lemma stripChar_append_hyphen (l : List Char)
    (hhead : ∀ c, l.head? = some c → c ≠ '-')
    (hlast : ∀ c, l.getLast? = some c → c ≠ '-') :
    stripChar '-' (l ++ ['-']) = l := by
  cases l with
  | nil => rfl
  | cons a t =>
    unfold stripChar
    have ha : a ≠ '-' := hhead a rfl
    rw [List.cons_append, List.dropWhile_cons, if_neg (by simp [ha])]
    rw [show (a :: (t ++ ['-'])).reverse = '-' :: (a :: t).reverse by
      simp [List.reverse_cons, List.reverse_append]]
    rw [List.dropWhile_cons, if_pos (by simp)]
    rw [dropWhile_eq_self_of_head ?hh]
    · rw [List.reverse_reverse]
    case hh =>
      intro c hc
      rw [List.head?_reverse] at hc
      simp [hlast c hc]

lemma slugify_fixpoint (s : String) (h : IsSlug s) : slugify_device_name s "" = s := by
  obtain ⟨hchars, hhead, hlast, hnd⟩ := h
  show String.mk (stripChar '-' (collapseRuns (fun c => c == '-') '-'
    ((collapseRuns isSpaceUnderscore '-' ((s ++ " " ++ "").data.map Char.toLower)).filter
      slugChar))) = s
  have hdata : (s ++ " " ++ "").data = s.data ++ [' '] := by
    simp
  have hmap : (s.data ++ [' ']).map Char.toLower = s.data ++ [' '] := by
    rw [List.map_append, map_toLower_eq_self hchars]
    rfl
  have hws : collapseRuns isSpaceUnderscore '-' (s.data ++ [' ']) = s.data ++ ['-'] := by
    unfold collapseRuns
    exact collapseRunsAux_append_run s.data
      (fun c hc => slugChar_not_ws c (hchars c hc)) (by decide)
  have hfil : (s.data ++ ['-']).filter slugChar = s.data ++ ['-'] := by
    rw [List.filter_eq_self]
    intro a ha
    rcases List.mem_append.mp ha with h1 | h1
    · exact hchars a h1
    · simp only [List.mem_singleton] at h1
      subst h1
      decide
  have hch : (s.data ++ ['-']).Chain' (fun a b => ¬(a = '-' ∧ b = '-')) := by
    rw [List.chain'_append]
    refine ⟨hnd, List.chain'_singleton '-', ?_⟩
    intro x hx y hy
    simp only [List.head?_cons, Option.mem_def, Option.some.injEq] at hy
    subst hy
    exact fun hc => hlast x hx hc.1
  have hcol : collapseRuns (fun c => c == '-') '-' (s.data ++ ['-']) = s.data ++ ['-'] := by
    unfold collapseRuns
    exact collapseRunsAux_eq_self (s.data ++ ['-']) false hch (by simp)
  have hstrip : stripChar '-' (s.data ++ ['-']) = s.data :=
    stripChar_append_hyphen s.data hhead hlast
  rw [hdata, hmap, hws, hfil, hcol, hstrip]

/-- C9: the output of the slug generator only contains characters in
`[a-z0-9-]`, never starts or ends with a hyphen and never contains two
adjacent hyphens; consequently re-slugifying the output (as manufacturer
with empty model) returns it unchanged. -/
theorem slugify_output_wellformed (m d : String) :
    IsSlug (slugify_device_name m d) ∧
      slugify_device_name (slugify_device_name m d) "" = slugify_device_name m d := by
  have hslug : IsSlug (slugify_device_name m d) := by
    unfold IsSlug
    rw [slugify_data]
    refine ⟨?_, ?_, ?_, ?_⟩
    · intro c hc
      rcases mem_collapseRunsAux (mem_stripChar hc) with rfl | ⟨h1, _⟩
      · decide
      · exact (List.mem_filter.mp h1).2
    · intro c hc hcontra
      have := head?_stripChar hc
      simp [hcontra] at this
    · intro c hc hcontra
      have := getLast?_stripChar hc
      simp [hcontra] at this
    · exact chain'_stripChar (chain'_collapseRunsAux _ false)
  exact ⟨hslug, slugify_fixpoint _ hslug⟩

/-- Witness filesystem for the resolver theorems: only the Palo Alto
elevation directory exists, with no image files. -/
def fsDirOnly : FS :=
  ⟨fun p => p == "/repo/elevation-images/Palo Alto", fun _ => false⟩

theorem find_elevation_image_absent_cases_witness :
    (fsDirOnly.pathExists (elevationDir ⟨"/repo"⟩ "Palo Alto") = true) ∧
      (∀ ext ∈ [".png", ".jpg", ".jpeg", ".svg"],
        fsDirOnly.pathExists (candidatePath ⟨"/repo"⟩ "Palo Alto" "PA-850" "front" ext) = false) ∧
      find_elevation_image fsDirOnly ⟨"/repo"⟩ "Palo Alto" "PA-850" "front" = none :=
  ⟨by decide, by decide,
    (find_elevation_image_absent_cases fsDirOnly ⟨"/repo"⟩ "Palo Alto" "PA-850" "front").2
      (by decide) (by decide)⟩

/-- Witness filesystem for the priority theorem: the directory plus both
a `.png` and a `.jpg` candidate exist. -/
def fsPngJpg : FS :=
  ⟨fun p =>
    (p == "/repo/elevation-images/Palo Alto") ||
      (p == "/repo/elevation-images/Palo Alto/palo-alto-pa-850.front.png") ||
      (p == "/repo/elevation-images/Palo Alto/palo-alto-pa-850.front.jpg"),
    fun _ => false⟩

theorem find_elevation_image_priority_order_witness :
    (fsPngJpg.pathExists (elevationDir ⟨"/repo"⟩ "Palo Alto") = true) ∧
      (fsPngJpg.pathExists (candidatePath ⟨"/repo"⟩ "Palo Alto" "PA-850" "front" ".png") = true) ∧
      (fsPngJpg.pathExists (candidatePath ⟨"/repo"⟩ "Palo Alto" "PA-850" "front" ".jpg") = true) ∧
      find_elevation_image fsPngJpg ⟨"/repo"⟩ "Palo Alto" "PA-850" "front"
        = some (candidatePath ⟨"/repo"⟩ "Palo Alto" "PA-850" "front" ".png") :=
  ⟨by decide, by decide, by decide,
    (find_elevation_image_priority_order fsPngJpg ⟨"/repo"⟩ "Palo Alto" "PA-850" "front"
      (by decide)).1 (by decide)⟩

lemma import_ok_eq (db : DB) (data : DeviceData) (git : Option GitRepo) (fs : FS)
    (logger : Bool) (formB : FormBehavior) (cfOk : Bool) (m : String)
    (h1 : data "manufacturer" = some (.str m))
    (h2 : m ∈ db.manufacturers)
    (h3 : db.devicetypes.filter
      (fun dt => decide (dt.model = getStrV (data "model")) && decide (dt.manufacturer = m)) = []) :
    import_device_type_with_images db data git fs logger formB cfOk
      = afterDupCheck db data git fs logger formB cfOk m (getStrV (data "model")) := by
  unfold import_device_type_with_images
  rw [h1]
  simp only [importWithMname, importAfterMfr]
  rw [if_pos h2, h3]
  rfl

lemma filter_pair_eq_singleton :
    ∀ (L : List DeviceTypeRecord) (dt : DeviceTypeRecord),
      (L.map (fun x => (x.manufacturer, x.model))).Nodup → dt ∈ L →
      L.filter (fun x => decide (x.model = dt.model) && decide (x.manufacturer = dt.manufacturer))
        = [dt] := by
  intro L
  induction L with
  | nil => intro dt _ h; simp at h
  | cons a t ih =>
    intro dt hnd hdt
    rw [List.map_cons, List.nodup_cons] at hnd
    by_cases hpair : a.manufacturer = dt.manufacturer ∧ a.model = dt.model
    · have hdta : dt = a := by
        rcases List.mem_cons.mp hdt with h | h
        · exact h
        · exfalso
          apply hnd.1
          rw [List.mem_map]
          exact ⟨dt, h, by rw [hpair.1, hpair.2]⟩
      subst hdta
      rw [List.filter_cons, if_pos (by simp [hpair.1, hpair.2])]
      have hrest : t.filter
          (fun x => decide (x.model = dt.model) && decide (x.manufacturer = dt.manufacturer)) = [] := by
        rw [List.filter_eq_nil_iff]
        intro x hx
        simp only [Bool.and_eq_true, decide_eq_true_eq, not_and]
        intro hx1 hx2
        apply hnd.1
        rw [List.mem_map]
        exact ⟨x, hx, by rw [hx1, hx2, hpair.1, hpair.2]⟩
      rw [hrest]
    · rw [List.filter_cons, if_neg]
      · apply ih dt hnd.2
        rcases List.mem_cons.mp hdt with h | h
        · exact absurd ⟨by rw [h], by rw [h]⟩ hpair
        · exact h
      · simp only [Bool.and_eq_true, decide_eq_true_eq, not_and]
        intro hx1 hx2
        exact hpair ⟨hx2, hx1⟩

/-- C1: when the spec's (manufacturer, model) pair matches a persisted
record, the import fails with the duplicate error, leaves the database
untouched (no record, components, images or attribute updates) and logs
nothing. -/
theorem import_duplicate_rejected (db : DB) (data : DeviceData) (git : Option GitRepo)
    (fs : FS) (logger : Bool) (formB : FormBehavior) (cfOk : Bool)
    (m : String) (dt : DeviceTypeRecord)
    (hWF : db.WF)
    (h1 : data "manufacturer" = some (.str m))
    (hdt : dt ∈ db.devicetypes)
    (hm : dt.manufacturer = m)
    (hmod : dt.model = getStrV (data "model")) :
    import_device_type_with_images db data git fs logger formB cfOk
      = (db, [], .err .duplicateDeviceType) := by
  have h2 : m ∈ db.manufacturers := hm ▸ hWF.2 dt hdt
  unfold import_device_type_with_images
  rw [h1]
  simp only [importWithMname, importAfterMfr]
  rw [if_pos h2, ← hmod, ← hm, filter_pair_eq_singleton db.devicetypes dt hWF.1 hdt]
  rfl

/-- Filesystem with no paths at all, for import witnesses. -/
def fsEmpty : FS := ⟨fun _ => false, fun _ => false⟩

/-- Database holding one Palo Alto PA-850 record, for the duplicate
witness. -/
def dbDup : DB :=
  ⟨["Palo Alto"], [⟨0, "Palo Alto", some "PA-850"⟩], [], [], [], 1⟩

theorem import_duplicate_rejected_witness :
    dbDup.WF ∧
      toDict [("manufacturer", .str "Palo Alto"), ("model", .str "PA-850")] "manufacturer"
        = some (.str "Palo Alto") ∧
      (⟨0, "Palo Alto", some "PA-850"⟩ : DeviceTypeRecord) ∈ dbDup.devicetypes ∧
      (⟨0, "Palo Alto", some "PA-850"⟩ : DeviceTypeRecord).manufacturer = "Palo Alto" ∧
      (⟨0, "Palo Alto", some "PA-850"⟩ : DeviceTypeRecord).model
        = getStrV (toDict [("manufacturer", .str "Palo Alto"), ("model", .str "PA-850")] "model") ∧
      import_device_type_with_images dbDup
          (toDict [("manufacturer", .str "Palo Alto"), ("model", .str "PA-850")])
          none fsEmpty true .ok true
        = (dbDup, [], .err .duplicateDeviceType) :=
  ⟨by decide, by decide, by decide, by decide, by decide,
    import_duplicate_rejected dbDup
      (toDict [("manufacturer", .str "Palo Alto"), ("model", .str "PA-850")])
      none fsEmpty true .ok true "Palo Alto" ⟨0, "Palo Alto", some "PA-850"⟩
      (by decide) (by decide) (by decide) (by decide) (by decide)⟩

lemma mem_logIf_of_mem {e : LogEntry} {b : Bool} {x : LogEntry} {log : List LogEntry}
    (h : e ∈ log) : e ∈ logIf b x log := by
  unfold logIf
  split
  · exact List.mem_append_left _ h
  · exact h

lemma imageStage_components (fs : FS) (logger : Bool) (git : Option GitRepo)
    (data : DeviceData) (devId : Nat) (m ms : String) (db : DB) (log : List LogEntry) :
    (imageStage fs logger git data devId m ms db log).1.components = db.components := by
  unfold imageStage
  cases git <;> dsimp only
  all_goals repeat' split
  all_goals rfl

lemma imageStage_devicetypes (fs : FS) (logger : Bool) (git : Option GitRepo)
    (data : DeviceData) (devId : Nat) (m ms : String) (db : DB) (log : List LogEntry) :
    (imageStage fs logger git data devId m ms db log).1.devicetypes = db.devicetypes := by
  unfold imageStage
  cases git <;> dsimp only
  all_goals repeat' split
  all_goals rfl

lemma imageStage_cfStore (fs : FS) (logger : Bool) (git : Option GitRepo)
    (data : DeviceData) (devId : Nat) (m ms : String) (db : DB) (log : List LogEntry) :
    (imageStage fs logger git data devId m ms db log).1.cfStore = db.cfStore := by
  unfold imageStage
  cases git <;> dsimp only
  all_goals repeat' split
  all_goals rfl

lemma cfStage_components (logger cfOk : Bool) (data : DeviceData) (devId : Nat)
    (db : DB) (log : List LogEntry) :
    (cfStage logger cfOk data devId db log).1.components = db.components := by
  unfold cfStage
  dsimp only
  repeat' split
  all_goals rfl

lemma cfStage_devicetypes (logger cfOk : Bool) (data : DeviceData) (devId : Nat)
    (db : DB) (log : List LogEntry) :
    (cfStage logger cfOk data devId db log).1.devicetypes = db.devicetypes := by
  unfold cfStage
  dsimp only
  repeat' split
  all_goals rfl

lemma cfStage_log_mem {e : LogEntry} (logger cfOk : Bool) (data : DeviceData) (devId : Nat)
    (db : DB) (log : List LogEntry) (h : e ∈ log) :
    e ∈ (cfStage logger cfOk data devId db log).2 := by
  unfold cfStage
  dsimp only
  repeat' split
  · exact h
  · exact mem_logIf_of_mem h
  · exact mem_logIf_of_mem h

lemma afterDupCheck_ok_outcome (db : DB) (data : DeviceData) (git : Option GitRepo) (fs : FS)
    (logger cfOk : Bool) (m : String) (model : Option String) :
    (afterDupCheck db data git fs logger .ok cfOk m model).2.2
      = .ok ⟨db.nextId, m, model⟩ := by
  unfold afterDupCheck
  rfl

lemma afterDupCheck_ok_components (db : DB) (data : DeviceData) (git : Option GitRepo) (fs : FS)
    (logger cfOk : Bool) (m : String) (model : Option String) :
    (afterDupCheck db data git fs logger .ok cfOk m model).1.components
      = db.components
        ++ (COMPONENTS.map (fun key => materializeKind data db.nextId key)).flatten := by
  unfold afterDupCheck
  dsimp only
  rw [cfStage_components, imageStage_components]

lemma afterDupCheck_ok_devicetypes (db : DB) (data : DeviceData) (git : Option GitRepo) (fs : FS)
    (logger cfOk : Bool) (m : String) (model : Option String) :
    (afterDupCheck db data git fs logger .ok cfOk m model).1.devicetypes
      = db.devicetypes ++ [⟨db.nextId, m, model⟩] := by
  unfold afterDupCheck
  dsimp only
  rw [cfStage_devicetypes, imageStage_devicetypes]

lemma imageStage_failedFront_mem (fs : FS) (logger : Bool) (repo : GitRepo)
    (data : DeviceData) (devId : Nat) (m ms : String) (db : DB) (log : List LogEntry)
    (p : String)
    (hf : truthyOpt (data "front_image") = true)
    (hfind : find_elevation_image fs repo m ms "front" = some p)
    (hread : fs.readable p = false)
    (hlog : logger = true) :
    LogEntry.failedFrontImage ∈ (imageStage fs logger (some repo) data devId m ms db log).2 := by
  subst hlog
  unfold imageStage
  dsimp only
  simp only [hf, hfind, hread, if_true, Bool.false_eq_true, if_false]
  repeat' split
  all_goals simp [logIf]

/-- C3: on the success path, image handling is best-effort: whatever the
filesystem and image flags, the import returns the created record with
the base record and every materialized component intact, and when a
requested front image resolves but the candidate cannot be read, the
failure is logged as a warning while the import still succeeds. -/
theorem import_image_failure_tolerated
    (db : DB) (data : DeviceData) (repo : GitRepo) (fs : FS) (logger cfOk : Bool)
    (m p : String)
    (h1 : data "manufacturer" = some (.str m))
    (h2 : m ∈ db.manufacturers)
    (h3 : db.devicetypes.filter
      (fun dt => decide (dt.model = getStrV (data "model")) && decide (dt.manufacturer = m)) = []) :
    ((import_device_type_with_images db data (some repo) fs logger .ok cfOk).2.2
        = .ok ⟨db.nextId, m, getStrV (data "model")⟩) ∧
      ((import_device_type_with_images db data (some repo) fs logger .ok cfOk).1.components
        = db.components
          ++ (COMPONENTS.map (fun key => materializeKind data db.nextId key)).flatten) ∧
      ((import_device_type_with_images db data (some repo) fs logger .ok cfOk).1.devicetypes
        = db.devicetypes ++ [⟨db.nextId, m, getStrV (data "model")⟩]) ∧
      (truthyOpt (data "front_image") = true →
        find_elevation_image fs repo m (pyStr (getStrV (data "model"))) "front" = some p →
        fs.readable p = false → logger = true →
        LogEntry.failedFrontImage
            ∈ (import_device_type_with_images db data (some repo) fs logger .ok cfOk).2.1 ∧
          LogEntry.failedFrontImage.level = .warning) := by
  have he := import_ok_eq db data (some repo) fs logger .ok cfOk m h1 h2 h3
  rw [he]
  refine ⟨afterDupCheck_ok_outcome _ _ _ _ _ _ _ _,
    afterDupCheck_ok_components _ _ _ _ _ _ _ _,
    afterDupCheck_ok_devicetypes _ _ _ _ _ _ _ _, ?_⟩
  intro hf hfind hread hlog
  constructor
  · unfold afterDupCheck
    dsimp only
    exact cfStage_log_mem _ _ _ _ _ _
      (imageStage_failedFront_mem _ _ _ _ _ _ _ _ _ _ hf hfind hread hlog)
  · rfl

/-- Database with a registered Palo Alto manufacturer and no records. -/
def dbPA : DB := ⟨["Palo Alto"], [], [], [], [], 0⟩

/-- Spec requesting a front image for a Palo Alto PA-850. -/
def dataPA : DeviceData :=
  toDict [("manufacturer", .str "Palo Alto"), ("model", .str "PA-850"),
    ("front_image", .bool true)]

/-- Filesystem where the elevation directory and the front png exist but
nothing is readable (attachment always fails). -/
def fsUnreadable : FS :=
  ⟨fun q =>
    (q == "/repo/elevation-images/Palo Alto") ||
      (q == "/repo/elevation-images/Palo Alto/palo-alto-pa-850.front.png"),
    fun _ => false⟩

theorem import_image_failure_tolerated_witness :
    (dataPA "manufacturer" = some (.str "Palo Alto")) ∧
      ("Palo Alto" ∈ dbPA.manufacturers) ∧
      (dbPA.devicetypes.filter
        (fun dt => decide (dt.model = getStrV (dataPA "model"))
          && decide (dt.manufacturer = "Palo Alto")) = []) ∧
      (truthyOpt (dataPA "front_image") = true) ∧
      (find_elevation_image fsUnreadable ⟨"/repo"⟩ "Palo Alto"
          (pyStr (getStrV (dataPA "model"))) "front"
        = some "/repo/elevation-images/Palo Alto/palo-alto-pa-850.front.png") ∧
      (fsUnreadable.readable "/repo/elevation-images/Palo Alto/palo-alto-pa-850.front.png"
        = false) ∧
      (LogEntry.failedFrontImage
          ∈ (import_device_type_with_images dbPA dataPA (some ⟨"/repo"⟩) fsUnreadable
              true .ok true).2.1 ∧
        LogEntry.failedFrontImage.level = .warning) :=
  ⟨by decide, by decide, by decide, by decide, by decide, by decide,
    (import_image_failure_tolerated dbPA dataPA ⟨"/repo"⟩ fsUnreadable true true
        "Palo Alto" "/repo/elevation-images/Palo Alto/palo-alto-pa-850.front.png"
        (by decide) (by decide) (by decide)).2.2.2
      (by decide) (by decide) (by decide) rfl⟩

lemma filter_kind_materializeKind_ne (data : DeviceData) (devId : Nat) (key k : String)
    (h : key ≠ k) :
    (materializeKind data devId key).filter (fun c => c.kind == k) = [] := by
  unfold materializeKind
  cases hg : getItemsV (data key) with
  | none => rfl
  | some items =>
    rw [List.filter_eq_nil_iff]
    intro c hc
    rw [List.mem_map] at hc
    obtain ⟨item, _, rfl⟩ := hc
    simp [h]

lemma materializeKind_interfaces (data : DeviceData) (devId : Nat)
    (L : List (List (String × SVal))) (hL : data "interfaces" = some (.items L)) :
    materializeKind data devId "interfaces"
      = L.map (fun item => ⟨"interfaces", devId,
          item.filter (fun f => decide (f.1 ∉ (["poe_mode", "poe_type"] : List String)))⟩) := by
  unfold materializeKind
  rw [hL]
  simp only [getItemsV]
  simp [STRIP_KEYWORDS]

lemma components_filter_interfaces (data : DeviceData) (devId : Nat)
    (L : List (List (String × SVal))) (hL : data "interfaces" = some (.items L)) :
    ((COMPONENTS.map (fun key => materializeKind data devId key)).flatten).filter
        (fun c => c.kind == "interfaces")
      = L.map (fun item => ⟨"interfaces", devId,
          item.filter (fun f => decide (f.1 ∉ (["poe_mode", "poe_type"] : List String)))⟩) := by
  simp only [COMPONENTS, List.map_cons, List.map_nil, List.flatten_cons, List.flatten_nil,
    List.filter_append, List.append_nil]
  rw [filter_kind_materializeKind_ne data devId "console-ports" "interfaces" (by decide),
    filter_kind_materializeKind_ne data devId "console-server-ports" "interfaces" (by decide),
    filter_kind_materializeKind_ne data devId "power-ports" "interfaces" (by decide),
    filter_kind_materializeKind_ne data devId "power-outlets" "interfaces" (by decide),
    filter_kind_materializeKind_ne data devId "rear-ports" "interfaces" (by decide),
    filter_kind_materializeKind_ne data devId "front-ports" "interfaces" (by decide),
    filter_kind_materializeKind_ne data devId "device-bays" "interfaces" (by decide),
    filter_kind_materializeKind_ne data devId "module-bays" "interfaces" (by decide),
    materializeKind_interfaces data devId L hL]
  rw [List.filter_eq_self.mpr]
  · simp
  · intro c hc
    rw [List.mem_map] at hc
    obtain ⟨item, _, rfl⟩ := hc
    simp

/-- C6: on the success path, a spec with an `interfaces` list yields
exactly one component per input item, in input order, with the
power-over-Ethernet mode and type fields stripped from each item before
construction. -/
theorem import_interfaces_stripped
    (db : DB) (data : DeviceData) (git : Option GitRepo) (fs : FS) (logger cfOk : Bool)
    (m : String) (L : List (List (String × SVal)))
    (h1 : data "manufacturer" = some (.str m))
    (h2 : m ∈ db.manufacturers)
    (h3 : db.devicetypes.filter
      (fun dt => decide (dt.model = getStrV (data "model")) && decide (dt.manufacturer = m)) = [])
    (hL : data "interfaces" = some (.items L)) :
    ((import_device_type_with_images db data git fs logger .ok cfOk).2.2
        = .ok ⟨db.nextId, m, getStrV (data "model")⟩) ∧
      ((import_device_type_with_images db data git fs logger .ok cfOk).1.components.filter
          (fun c => c.kind == "interfaces")
        = db.components.filter (fun c => c.kind == "interfaces")
          ++ L.map (fun item => ⟨"interfaces", db.nextId,
              item.filter (fun f => decide (f.1 ∉ (["poe_mode", "poe_type"] : List String)))⟩)) := by
  rw [import_ok_eq db data git fs logger .ok cfOk m h1 h2 h3]
  refine ⟨afterDupCheck_ok_outcome _ _ _ _ _ _ _ _, ?_⟩
  rw [afterDupCheck_ok_components, List.filter_append,
    components_filter_interfaces data db.nextId L hL]

/-- Database with a registered Acme manufacturer and nothing else. -/
def dbAcme : DB := ⟨["Acme"], [], [], [], [], 0⟩

/-- Spec with an interfaces list carrying a power-over-Ethernet mode
field. -/
def dataIfaces : DeviceData :=
  toDict [("manufacturer", .str "Acme"), ("model", .str "M1"),
    ("interfaces", .items [[("label", .s "eth0"), ("poe_mode", .s "pd"),
      ("mgmt_only", .b false)]])]

theorem import_interfaces_stripped_witness :
    (dataIfaces "manufacturer" = some (.str "Acme")) ∧
      ("Acme" ∈ dbAcme.manufacturers) ∧
      (dbAcme.devicetypes.filter
        (fun dt => decide (dt.model = getStrV (dataIfaces "model"))
          && decide (dt.manufacturer = "Acme")) = []) ∧
      (dataIfaces "interfaces"
        = some (.items [[("label", .s "eth0"), ("poe_mode", .s "pd"),
            ("mgmt_only", .b false)]])) ∧
      ((import_device_type_with_images dbAcme dataIfaces none fsEmpty true .ok true).1.components.filter
          (fun c => c.kind == "interfaces")
        = dbAcme.components.filter (fun c => c.kind == "interfaces")
          ++ [[("label", SVal.s "eth0"), ("poe_mode", SVal.s "pd"),
              ("mgmt_only", SVal.b false)]].map (fun item =>
              ⟨"interfaces", dbAcme.nextId,
                item.filter (fun f => decide (f.1 ∉ (["poe_mode", "poe_type"] : List String)))⟩)) :=
  ⟨by decide, by decide, by decide, by decide,
    (import_interfaces_stripped dbAcme dataIfaces none fsEmpty true true "Acme"
      [[("label", .s "eth0"), ("poe_mode", .s "pd"), ("mgmt_only", .b false)]]
      (by decide) (by decide) (by decide) (by decide)).2⟩

lemma cfStage_empty (logger cfOk : Bool) (data : DeviceData) (devId : Nat)
    (db : DB) (log : List LogEntry) (h : cfStaged data = []) :
    cfStage logger cfOk data devId db log = (db, log) := by
  unfold cfStage
  dsimp only
  rw [if_pos (by simp [h])]

lemma cfStage_apply (logger cfOk : Bool) (data : DeviceData) (devId : Nat)
    (db : DB) (log : List LogEntry) (h : cfStaged data ≠ []) (hok : cfOk = true) :
    cfStage logger cfOk data devId db log
      = ({ db with cfStore := db.cfStore ++ (cfStaged data).map (fun p => (devId, p.1, p.2)) },
         logIf logger (.setCustomFields ((cfStaged data).map (fun p => p.1))) log) := by
  unfold cfStage
  dsimp only
  rw [if_neg (by simp [h]), if_pos hok]

lemma cfStage_failed (logger cfOk : Bool) (data : DeviceData) (devId : Nat)
    (db : DB) (log : List LogEntry) (h : cfStaged data ≠ []) (hok : cfOk = false) :
    cfStage logger cfOk data devId db log = (db, logIf logger .failedCustomFields log) := by
  unfold cfStage
  dsimp only
  rw [if_neg (by simp [h]), if_neg (by simp [hok])]

/-- C7: on the success path, the attribute backfill stages the six fixed
mapping entries for exactly the spec fields present; with nothing staged
the store is untouched, with something staged and a successful save all
staged values are persisted in one update, and a failing save is caught:
the import still returns the record, the store is untouched and a
warning is logged. -/
theorem import_backfill_behaviour
    (db : DB) (data : DeviceData) (git : Option GitRepo) (fs : FS) (logger cfOk : Bool)
    (m : String)
    (h1 : data "manufacturer" = some (.str m))
    (h2 : m ∈ db.manufacturers)
    (h3 : db.devicetypes.filter
      (fun dt => decide (dt.model = getStrV (data "model")) && decide (dt.manufacturer = m)) = []) :
    ((import_device_type_with_images db data git fs logger .ok cfOk).2.2
        = .ok ⟨db.nextId, m, getStrV (data "model")⟩) ∧
      (cfStaged data = [] →
        (import_device_type_with_images db data git fs logger .ok cfOk).1.cfStore
          = db.cfStore) ∧
      (cfStaged data ≠ [] → cfOk = true →
        (import_device_type_with_images db data git fs logger .ok cfOk).1.cfStore
          = db.cfStore ++ (cfStaged data).map (fun p => (db.nextId, p.1, p.2))) ∧
      (cfStaged data ≠ [] → cfOk = false →
        (import_device_type_with_images db data git fs logger .ok cfOk).1.cfStore
            = db.cfStore ∧
          (logger = true →
            LogEntry.failedCustomFields
                ∈ (import_device_type_with_images db data git fs logger .ok cfOk).2.1 ∧
              LogEntry.failedCustomFields.level = .warning)) := by
  rw [import_ok_eq db data git fs logger .ok cfOk m h1 h2 h3]
  refine ⟨afterDupCheck_ok_outcome _ _ _ _ _ _ _ _, ?_, ?_, ?_⟩
  · intro h
    unfold afterDupCheck
    dsimp only
    rw [cfStage_empty _ _ _ _ _ _ h, imageStage_cfStore]
  · intro h hok
    unfold afterDupCheck
    dsimp only
    rw [cfStage_apply _ _ _ _ _ _ h hok]
    dsimp only
    rw [imageStage_cfStore]
  · intro h hok
    constructor
    · unfold afterDupCheck
      dsimp only
      rw [cfStage_failed _ _ _ _ _ _ h hok]
      dsimp only
      rw [imageStage_cfStore]
    · intro hlog
      subst hlog
      refine ⟨?_, rfl⟩
      unfold afterDupCheck
      dsimp only
      rw [cfStage_failed _ _ _ _ _ _ h hok]
      simp [logIf]

/-- Spec with a weight field staged for the custom-field backfill. -/
def dataCf : DeviceData :=
  toDict [("manufacturer", .str "Acme"), ("model", .str "M1"), ("weight", .num 7)]

theorem import_backfill_behaviour_witness :
    (dataCf "manufacturer" = some (.str "Acme")) ∧
      ("Acme" ∈ dbAcme.manufacturers) ∧
      (dbAcme.devicetypes.filter
        (fun dt => decide (dt.model = getStrV (dataCf "model"))
          && decide (dt.manufacturer = "Acme")) = []) ∧
      (cfStaged dataCf ≠ []) ∧
      ((import_device_type_with_images dbAcme dataCf none fsEmpty true .ok false).1.cfStore
          = dbAcme.cfStore ∧
        (LogEntry.failedCustomFields
            ∈ (import_device_type_with_images dbAcme dataCf none fsEmpty true .ok false).2.1 ∧
          LogEntry.failedCustomFields.level = .warning)) :=
  ⟨by decide, by decide, by decide, by decide,
    let h := (import_backfill_behaviour dbAcme dataCf none fsEmpty true false "Acme"
      (by decide) (by decide) (by decide)).2.2.2 (by decide) rfl
    ⟨h.1, h.2 rfl⟩⟩

/-- Minimal spec naming a registered manufacturer and a fresh model. -/
def dataSimple : DeviceData :=
  toDict [("manufacturer", .str "Acme"), ("model", .str "M1")]

/-- C8 counterexample: at a concrete fresh spec, a uniqueness-violation
error raised by the base-record creation step surfaces unchanged; it is
not turned into the duplicate error by the import. -/
theorem import_uniqueness_violation_not_duplicate :
    (import_device_type_with_images dbAcme dataSimple none fsEmpty true
        .uniquenessViolation true).2.2
      = .err .uniquenessViolation ∧
      (import_device_type_with_images dbAcme dataSimple none fsEmpty true
          .uniquenessViolation true).2.2
        ≠ .err .duplicateDeviceType := by
  decide

/-- C8 (amended): a uniqueness-violation error from the base-record
creation collaborator propagates as its own error kind; the import
performs no translation to the duplicate error. -/
theorem import_uniqueness_violation_propagates
    (db : DB) (data : DeviceData) (git : Option GitRepo) (fs : FS) (logger cfOk : Bool)
    (m : String)
    (h1 : data "manufacturer" = some (.str m))
    (h2 : m ∈ db.manufacturers)
    (h3 : db.devicetypes.filter
      (fun dt => decide (dt.model = getStrV (data "model")) && decide (dt.manufacturer = m)) = []) :
    import_device_type_with_images db data git fs logger .uniquenessViolation cfOk
      = (db, [], .err .uniquenessViolation) := by
  rw [import_ok_eq db data git fs logger .uniquenessViolation cfOk m h1 h2 h3]
  rfl

theorem import_uniqueness_violation_propagates_witness :
    (dataSimple "manufacturer" = some (.str "Acme")) ∧
      ("Acme" ∈ dbAcme.manufacturers) ∧
      (dbAcme.devicetypes.filter
        (fun dt => decide (dt.model = getStrV (dataSimple "model"))
          && decide (dt.manufacturer = "Acme")) = []) ∧
      import_device_type_with_images dbAcme dataSimple none fsEmpty true
          .uniquenessViolation true
        = (dbAcme, [], .err .uniquenessViolation) :=
  ⟨by decide, by decide, by decide,
    import_uniqueness_violation_propagates dbAcme dataSimple none fsEmpty true true "Acme"
      (by decide) (by decide) (by decide)⟩

lemma mem_of_toDict_eq_some :
    ∀ {l : List (String × Val)} {k : String} {v : Val},
      toDict l k = some v → (k, v) ∈ l := by
  intro l
  induction l with
  | nil => intro k v h; simp [toDict] at h
  | cons a t ih =>
    intro k v h
    by_cases hk : (a.1 == k) = true
    · rw [toDict, List.find?_cons_of_pos (p := fun q : String × Val => q.1 == k) _ hk] at h
      simp only [Option.map_some'] at h
      have hk2 : a.1 = k := by simpa using hk
      have hv : a.2 = v := by simpa using h
      rw [List.mem_cons]
      left
      rw [← hk2, ← hv]
    · rw [toDict, List.find?_cons_of_neg (p := fun q : String × Val => q.1 == k) _ (by simpa using hk)] at h
      exact List.mem_cons_of_mem a (ih h)

lemma toDict_eq_some_of_mem :
    ∀ {l : List (String × Val)} {k : String} {v : Val},
      (l.map Prod.fst).Nodup → (k, v) ∈ l → toDict l k = some v := by
  intro l
  induction l with
  | nil => intro k v _ h; simp at h
  | cons a t ih =>
    intro k v hnd hmem
    rw [List.map_cons, List.nodup_cons] at hnd
    rcases List.mem_cons.mp hmem with heq | hmem2
    · have hk : a.1 = k := by rw [← heq]
      rw [toDict, List.find?_cons_of_pos (p := fun q : String × Val => q.1 == k) _ (by simpa using hk)]
      rw [← heq]
      rfl
    · have hk : a.1 ≠ k := by
        intro hcontra
        apply hnd.1
        rw [List.mem_map]
        exact ⟨(k, v), hmem2, hcontra.symm⟩
      rw [toDict, List.find?_cons_of_neg (p := fun q : String × Val => q.1 == k) _ (by simpa using hk)]
      exact ih hnd.2 hmem2

lemma toDict_perm {l lp : List (String × Val)} (h : l.Perm lp)
    (hnd : (l.map Prod.fst).Nodup) : toDict l = toDict lp := by
  have hndp : (lp.map Prod.fst).Nodup := ((h.map Prod.fst).nodup_iff).mp hnd
  funext k
  cases h2 : toDict l k with
  | some v =>
    exact (toDict_eq_some_of_mem hndp ((h.mem_iff).mp (mem_of_toDict_eq_some h2))).symm
  | none =>
    cases h3 : toDict lp k with
    | none => rfl
    | some v =>
      have : (k, v) ∈ l := (h.mem_iff).mpr (mem_of_toDict_eq_some h3)
      rw [toDict_eq_some_of_mem hnd this] at h2
      exact absurd h2 (by simp)

lemma kind_of_mem_materializeKind {data : DeviceData} {devId : Nat} {key : String}
    {c : Component} (h : c ∈ materializeKind data devId key) : c.kind = key := by
  unfold materializeKind at h
  cases hg : getItemsV (data key) with
  | none => rw [hg] at h; simp at h
  | some items =>
    rw [hg] at h
    rw [List.mem_map] at h
    obtain ⟨item, _, rfl⟩ := h
    rfl

/-- C10: on the success path, only keys of the fixed nine-entry
component table produce components, the new components appear grouped in
the table's order independently of the spec dictionary's own key order
(any permutation of the spec entries yields the same import result), and
unknown keys are silently ignored: the import still succeeds and creates
nothing for them. -/
theorem import_component_table
    (db : DB) (l : List (String × Val)) (git : Option GitRepo) (fs : FS) (logger cfOk : Bool)
    (m : String)
    (h1 : toDict l "manufacturer" = some (.str m))
    (h2 : m ∈ db.manufacturers)
    (h3 : db.devicetypes.filter
      (fun dt => decide (dt.model = getStrV (toDict l "model"))
        && decide (dt.manufacturer = m)) = [])
    (hnd : (l.map Prod.fst).Nodup) :
    ((import_device_type_with_images db (toDict l) git fs logger .ok cfOk).2.2
        = .ok ⟨db.nextId, m, getStrV (toDict l "model")⟩) ∧
      (∀ c ∈ (import_device_type_with_images db (toDict l) git fs logger .ok cfOk).1.components,
        c ∈ db.components ∨ c.kind ∈ COMPONENTS) ∧
      List.Pairwise (fun a b => COMPONENTS.indexOf a.kind ≤ COMPONENTS.indexOf b.kind)
        ((import_device_type_with_images db (toDict l) git fs logger .ok cfOk).1.components.drop
          db.components.length) ∧
      (∀ lp, l.Perm lp →
        import_device_type_with_images db (toDict lp) git fs logger .ok cfOk
          = import_device_type_with_images db (toDict l) git fs logger .ok cfOk) := by
  have he := import_ok_eq db (toDict l) git fs logger .ok cfOk m h1 h2 h3
  refine ⟨?_, ?_, ?_, ?_⟩
  · rw [he]
    exact afterDupCheck_ok_outcome _ _ _ _ _ _ _ _
  · intro c hc
    rw [he, afterDupCheck_ok_components] at hc
    rcases List.mem_append.mp hc with h | h
    · exact Or.inl h
    · right
      rw [List.mem_flatten] at h
      obtain ⟨sub, hsub, hcsub⟩ := h
      rw [List.mem_map] at hsub
      obtain ⟨key, hkey, rfl⟩ := hsub
      rw [kind_of_mem_materializeKind hcsub]
      exact hkey
  · rw [he, afterDupCheck_ok_components, List.drop_left]
    rw [List.pairwise_flatten]
    constructor
    · intro sub hsub
      rw [List.mem_map] at hsub
      obtain ⟨key, _, rfl⟩ := hsub
      apply List.pairwise_of_forall_mem_list
      intro a ha b hb
      rw [kind_of_mem_materializeKind ha, kind_of_mem_materializeKind hb]
    · rw [List.pairwise_map]
      have hbase : List.Pairwise
          (fun k1 k2 => COMPONENTS.indexOf k1 ≤ COMPONENTS.indexOf k2) COMPONENTS := by
        decide
      apply hbase.imp
      intro k1 k2 hk x hx y hy
      rw [kind_of_mem_materializeKind hx, kind_of_mem_materializeKind hy]
      exact hk
  · intro lp hperm
    rw [← toDict_perm hperm hnd]

/-- Spec entry list with two component kinds, in one textual order. -/
def specEntries : List (String × Val) :=
  [("manufacturer", .str "Acme"), ("model", .str "M2"),
   ("interfaces", .items [[("label", .s "eth0")]]),
   ("device-bays", .items [[("label", .s "bay1")]])]

/-- The same entries with the two component-kind keys swapped. -/
def specEntriesSwapped : List (String × Val) :=
  [("manufacturer", .str "Acme"), ("model", .str "M2"),
   ("device-bays", .items [[("label", .s "bay1")]]),
   ("interfaces", .items [[("label", .s "eth0")]])]

theorem import_component_table_witness :
    (toDict specEntries "manufacturer" = some (.str "Acme")) ∧
      ("Acme" ∈ dbAcme.manufacturers) ∧
      (dbAcme.devicetypes.filter
        (fun dt => decide (dt.model = getStrV (toDict specEntries "model"))
          && decide (dt.manufacturer = "Acme")) = []) ∧
      ((specEntries.map Prod.fst).Nodup) ∧
      (specEntries.Perm specEntriesSwapped) ∧
      import_device_type_with_images dbAcme (toDict specEntriesSwapped) none fsEmpty true .ok true
        = import_device_type_with_images dbAcme (toDict specEntries) none fsEmpty true .ok true :=
  ⟨by decide, by decide, by decide, by decide, by decide,
    (import_component_table dbAcme specEntries none fsEmpty true true "Acme"
        (by decide) (by decide) (by decide) (by decide)).2.2.2
      specEntriesSwapped (by decide)⟩
